import Mathlib

/-!
Shallow embedding of the task lifecycle store of Auto-Claude
(`src/auto-claude-ui/src/renderer/stores/task-store.ts`) and of the review
handlers of the task detail panel, with theorems settling the spec's claims
about status derivation, progress merging, recovery and frame conditions.

Conventions of the embedding: JavaScript `Date` timestamps are an opaque
`Nat` supplied by the caller as `now`; an optional / possibly-`undefined`
field is an `Option`; a TypeScript `Partial` record is a record of `Option`
Tasks, where `none` means the field is absent from the update, so that the
object-spread merge `\x7b ...existing, ...update \x7d` becomes a field-wise
`Option.getD`.
-/

namespace AutoClaude

/-- Task status, `TaskStatus` of shared/types. -/
inductive TaskStatus
  | backlog
  | in_progress
  | ai_review
  | human_review
  | done
  deriving DecidableEq, Repr

/-- Review reason, `ReviewReason` of shared/types. -/
inductive ReviewReason
  | completed
  | errors
  | qa_issues
  deriving DecidableEq, Repr

/-- Chunk status: pending, in_progress, completed or failed. -/
inductive ChunkStatus
  | pending
  | in_progress
  | completed
  | failed
  deriving DecidableEq, Repr

/-- A chunk as stored on a task. -/
structure Chunk where
  id : String
  title : String
  description : String
  status : ChunkStatus
  files : List String
  verification : Option String
  deriving DecidableEq, Repr

/-- Execution phase, `ExecutionPhase` of shared/types. -/
inductive ExecutionPhase
  | idle
  | planning
  | coding
  | qa_review
  | qa_fixing
  | complete
  | failed
  deriving DecidableEq, Repr

/-- Execution progress attached to a task. -/
structure ExecutionProgress where
  phase : ExecutionPhase
  phaseProgress : Nat
  overallProgress : Nat
  message : Option String
  currentChunk : Option String
  deriving DecidableEq, Repr

/-- `Partial ExecutionProgress`: each field may be absent from an update. -/
structure ProgressUpdate where
  phase : Option ExecutionPhase := none
  phaseProgress : Option Nat := none
  overallProgress : Option Nat := none
  message : Option (Option String) := none
  currentChunk : Option (Option String) := none
  deriving DecidableEq, Repr

/-- Task metadata; only `sourceType` is inspected by the store. -/
structure TaskMetadata where
  sourceType : Option String
  deriving DecidableEq, Repr

/-- A task record as held by the renderer store. -/
structure Task where
  id : String
  specId : String
  title : String
  description : String
  status : TaskStatus
  reviewReason : Option ReviewReason
  chunks : Option (List Chunk)
  executionProgress : Option ExecutionProgress
  metadata : Option TaskMetadata
  logs : Option (List String)
  createdAt : Nat
  updatedAt : Nat
  deriving DecidableEq, Repr

/-- `Partial Task` as taken by `updateTask`. -/
structure TaskUpdate where
  id : Option String := none
  specId : Option String := none
  title : Option String := none
  description : Option String := none
  status : Option TaskStatus := none
  reviewReason : Option (Option ReviewReason) := none
  chunks : Option (Option (List Chunk)) := none
  executionProgress : Option (Option ExecutionProgress) := none
  metadata : Option (Option TaskMetadata) := none
  logs : Option (Option (List String)) := none
  createdAt : Option Nat := none
  updatedAt : Option Nat := none
  deriving DecidableEq, Repr

/-- A chunk inside an implementation plan phase. -/
structure PlanChunk where
  id : String
  description : String
  status : ChunkStatus
  verification : Option String
  deriving DecidableEq, Repr

/-- A phase of an implementation plan. -/
structure PlanPhase where
  chunks : List PlanChunk
  deriving DecidableEq, Repr

/-- An implementation plan as delivered to `updateTaskFromPlan`. -/
structure ImplementationPlan where
  feature : Option String
  phases : List PlanPhase
  deriving DecidableEq, Repr

/-- The renderer task store state (the slice the claims concern). -/
structure TaskState where
  tasks : List Task
  selectedTaskId : Option String
  deriving DecidableEq, Repr

/-- The identifier match used by every task-mutating store action:
`t.id === taskId || t.specId === taskId`. -/
def taskMatches (taskId : String) (t : Task) : Bool :=
  t.id == taskId || t.specId == taskId

/-- Per-task body of `updateTask`: `\x7b ...t, ...updates \x7d` on a match,
identity otherwise. -/
def updateTaskFn (taskId : String) (updates : TaskUpdate) (t : Task) : Task :=
  if taskMatches taskId t then
    { id := updates.id.getD t.id
      specId := updates.specId.getD t.specId
      title := updates.title.getD t.title
      description := updates.description.getD t.description
      status := updates.status.getD t.status
      reviewReason := updates.reviewReason.getD t.reviewReason
      chunks := updates.chunks.getD t.chunks
      executionProgress := updates.executionProgress.getD t.executionProgress
      metadata := updates.metadata.getD t.metadata
      logs := updates.logs.getD t.logs
      createdAt := updates.createdAt.getD t.createdAt
      updatedAt := updates.updatedAt.getD t.updatedAt }
  else t

/-- `updateTask` store action. -/
def updateTask (taskId : String) (updates : TaskUpdate) (st : TaskState) :
    TaskState :=
  { st with tasks := st.tasks.map (updateTaskFn taskId updates) }

/-- Per-task body of `updateTaskStatus`: sets `status` and stamps
`updatedAt` on a match. -/
def updateTaskStatusFn (taskId : String) (status : TaskStatus) (now : Nat)
    (t : Task) : Task :=
  if taskMatches taskId t then { t with status := status, updatedAt := now }
  else t

/-- `updateTaskStatus` store action. -/
def updateTaskStatus (taskId : String) (status : TaskStatus) (now : Nat)
    (st : TaskState) : TaskState :=
  { st with tasks := st.tasks.map (updateTaskStatusFn taskId status now) }

/-- Chunk extraction of `updateTaskFromPlan`:
`plan.phases.flatMap(phase => phase.chunks.map(...))`, with `title` and
`description` both taken from the plan chunk's description and `files`
initialised empty. -/
def extractChunks (plan : ImplementationPlan) : List Chunk :=
  plan.phases.flatMap fun phase =>
    phase.chunks.map fun c =>
      { id := c.id
        title := c.description
        description := c.description
        status := c.status
        files := []
        verification := c.verification }

/-- JavaScript `plan.feature || t.title`: empty and absent strings are
falsy. -/
def featureOr (feature : Option String) (fallback : String) : String :=
  match feature with
  | none => fallback
  | some s => if s.isEmpty then fallback else s

/-- The status derivation of `updateTaskFromPlan` (the spec's
`deriveStatus`): from the chunk list, the caller's current status and
reason, and whether the task's `metadata.sourceType` is `manual`, compute
the new `(status, reviewReason)` pair exactly as lines 76-100 of
task-store.ts do. -/
def deriveStatusReason (chunks : List Chunk) (currentStatus : TaskStatus)
    (currentReason : Option ReviewReason) (isManual : Bool) :
    TaskStatus × Option ReviewReason :=
  let allCompleted :=
    chunks.length > 0 && chunks.all fun c => c.status == ChunkStatus.completed
  let anyInProgress := chunks.any fun c => c.status == ChunkStatus.in_progress
  let anyFailed := chunks.any fun c => c.status == ChunkStatus.failed
  let anyCompleted := chunks.any fun c => c.status == ChunkStatus.completed
  if allCompleted then
    if isManual then (TaskStatus.human_review, some ReviewReason.completed)
    else (TaskStatus.ai_review, none)
  else if anyFailed then (TaskStatus.human_review, some ReviewReason.errors)
  else if anyInProgress || anyCompleted then (TaskStatus.in_progress, none)
  else (currentStatus, currentReason)

/-- Per-task body of `updateTaskFromPlan`: extracts the chunk list from the
plan, re-derives `status` and `reviewReason` from it, and stamps
`updatedAt`. -/
def updateTaskFromPlanFn (taskId : String) (plan : ImplementationPlan)
    (now : Nat) (t : Task) : Task :=
  if ¬ taskMatches taskId t then t
  else
    let chunks := extractChunks plan
    let isManual := (t.metadata.bind TaskMetadata.sourceType) == some "manual"
    let statusReason :=
      deriveStatusReason chunks t.status t.reviewReason isManual
    { t with
      title := featureOr plan.feature t.title
      chunks := some chunks
      status := statusReason.1
      reviewReason := statusReason.2
      updatedAt := now }

/-- `updateTaskFromPlan` store action. -/
def updateTaskFromPlan (taskId : String) (plan : ImplementationPlan)
    (now : Nat) (st : TaskState) : TaskState :=
  { st with tasks := st.tasks.map (updateTaskFromPlanFn taskId plan now) }

/-- The default progress used when a task has none yet:
`\x7b phase: 'idle', phaseProgress: 0, overallProgress: 0 \x7d`. -/
def emptyProgress : ExecutionProgress :=
  { phase := ExecutionPhase.idle
    phaseProgress := 0
    overallProgress := 0
    message := none
    currentChunk := none }

/-- The object-spread merge `\x7b ...existingProgress, ...progress \x7d`. -/
def mergeProgress (existing : ExecutionProgress) (p : ProgressUpdate) :
    ExecutionProgress :=
  { phase := p.phase.getD existing.phase
    phaseProgress := p.phaseProgress.getD existing.phaseProgress
    overallProgress := p.overallProgress.getD existing.overallProgress
    message := p.message.getD existing.message
    currentChunk := p.currentChunk.getD existing.currentChunk }

/-- Per-task body of `updateExecutionProgress`: merges the partial update
into the existing progress (defaulting to idle) and stamps `updatedAt`. -/
def updateExecutionProgressFn (taskId : String) (p : ProgressUpdate)
    (now : Nat) (t : Task) : Task :=
  if ¬ taskMatches taskId t then t
  else
    let existing := t.executionProgress.getD emptyProgress
    { t with
      executionProgress := some (mergeProgress existing p)
      updatedAt := now }

/-- `updateExecutionProgress` store action. -/
def updateExecutionProgress (taskId : String) (p : ProgressUpdate)
    (now : Nat) (st : TaskState) : TaskState :=
  { st with tasks := st.tasks.map (updateExecutionProgressFn taskId p now) }

/-- Per-task body of `appendLog`:
`logs: [...(t.logs || []), log]` on a match. -/
def appendLogFn (taskId : String) (log : String) (t : Task) : Task :=
  if taskMatches taskId t then { t with logs := some (t.logs.getD [] ++ [log]) }
  else t

/-- `appendLog` store action. -/
def appendLog (taskId : String) (log : String) (st : TaskState) : TaskState :=
  { st with tasks := st.tasks.map (appendLogFn taskId log) }

/-- Local state effect of `submitReview`: when the control process reports
success, the task's status becomes `done` on approval and `in_progress` on
rejection, via `updateTaskStatus`; on failure the store is untouched. -/
def submitReviewLocal (taskId : String) (approved : Bool)
    (backendSuccess : Bool) (now : Nat) (st : TaskState) : TaskState :=
  if backendSuccess then
    updateTaskStatus taskId
      (if approved then TaskStatus.done else TaskStatus.in_progress) now st
  else st

/-- `isIncompleteHumanReview`: a `human_review` task whose chunk list is
absent, empty, or has zero completed chunks. -/
def isIncompleteHumanReview (task : Task) : Bool :=
  if task.status != TaskStatus.human_review then false
  else
    match task.chunks with
    | none => true
    | some cs =>
      if cs.length == 0 then true
      else (cs.filter fun c => c.status == ChunkStatus.completed).length == 0

/-- `hasActiveExecution` of the task detail panel: the phase is set and is
none of idle, complete, failed. -/
def hasActiveExecution (t : Task) : Bool :=
  match t.executionProgress with
  | none => false
  | some ep =>
    ep.phase != ExecutionPhase.idle && ep.phase != ExecutionPhase.complete &&
      ep.phase != ExecutionPhase.failed

/-- JavaScript `String.prototype.trim`: strip leading and trailing
whitespace. -/
def jsTrim (s : String) : String :=
  String.mk
    (((s.data.dropWhile Char.isWhitespace).reverse.dropWhile
      Char.isWhitespace).reverse)

/-- The review submission issued to the control process on rejection. -/
structure ReviewSubmission where
  taskId : String
  approved : Bool
  feedback : Option String
  deriving DecidableEq, Repr

/-- `handleReject` of the task detail panel: returns without submitting
when the feedback is empty after trimming, otherwise submits a rejection
carrying the feedback. -/
def handleReject (taskId : String) (feedback : String) :
    Option ReviewSubmission :=
  if (jsTrim feedback).isEmpty then none
  else some { taskId := taskId, approved := false, feedback := some feedback }

/-- Options accepted by `recoverStuckTask`. -/
structure RecoverOptions where
  targetStatus : Option TaskStatus := none
  autoRestart : Option Bool := none
  deriving DecidableEq, Repr

/-- Bookkeeping state of one task on the control-process side: whether a
live worker process exists, the recorded status, and how many times a
worker has been started. -/
structure WorkerState where
  processRunning : Bool
  status : TaskStatus
  startCount : Nat
  deriving DecidableEq, Repr

/-- Modelled from the spec: the control-process handler behind
`window.electronAPI.recoverStuckTask` is not part of this source snapshot
(only its renderer-side caller is). Per section 4.3, when no live worker
process exists recovery always succeeds in resetting the recorded status to
the caller-specified target (defaulting to the task's natural next status,
here its current one), and re-invokes the start operation only when
`autoRestart` is explicitly requested on that call. -/
def recoverStuckTaskModel (opts : RecoverOptions) (w : WorkerState) :
    Bool × WorkerState :=
  if w.processRunning then (false, w)
  else
    let target := opts.targetStatus.getD w.status
    if opts.autoRestart == some true then
      (true,
        { processRunning := true
          status := TaskStatus.in_progress
          startCount := w.startCount + 1 })
    else (true, { w with status := target })

/-- The invariant of section 3: `reviewReason` is defined only while the
task sits in `human_review`. -/
def reviewReasonInv (t : Task) : Prop :=
  t.reviewReason ≠ none → t.status = TaskStatus.human_review

instance (t : Task) : Decidable (reviewReasonInv t) := by
  unfold reviewReasonInv; infer_instance

/- Helper lemmas on the status derivation. -/

theorem deriveStatusReason_all_completed (cs : List Chunk) (s : TaskStatus)
    (r : Option ReviewReason) (m : Bool) (hne : cs ≠ [])
    (hall : ∀ c ∈ cs, c.status = ChunkStatus.completed) :
    deriveStatusReason cs s r m =
      if m then (TaskStatus.human_review, some ReviewReason.completed)
      else (TaskStatus.ai_review, none) := by
  have h1 : (decide (cs.length > 0) &&
      cs.all fun c => c.status == ChunkStatus.completed) = true := by
    simp only [Bool.and_eq_true, decide_eq_true_eq, List.all_eq_true,
      beq_iff_eq]
    exact ⟨List.length_pos.mpr hne, hall⟩
  unfold deriveStatusReason
  simp only [gt_iff_lt, h1, if_true]

theorem deriveStatusReason_any_failed (cs : List Chunk) (s : TaskStatus)
    (r : Option ReviewReason) (m : Bool) (c : Chunk) (hc : c ∈ cs)
    (hf : c.status = ChunkStatus.failed) :
    deriveStatusReason cs s r m =
      (TaskStatus.human_review, some ReviewReason.errors) := by
  have hnall : (decide (cs.length > 0) &&
      cs.all fun x => x.status == ChunkStatus.completed) = false := by
    simp only [Bool.and_eq_false_iff]
    right
    rw [List.all_eq_false]
    exact ⟨c, hc, by simp [hf]⟩
  have hfail : (cs.any fun x => x.status == ChunkStatus.failed) = true := by
    simp only [List.any_eq_true, beq_iff_eq]
    exact ⟨c, hc, hf⟩
  unfold deriveStatusReason
  simp only [gt_iff_lt, hnall, hfail, Bool.false_eq_true, if_false, if_true]

theorem deriveStatusReason_quiescent (cs : List Chunk) (s : TaskStatus)
    (r : Option ReviewReason) (m : Bool)
    (hp : ∀ c ∈ cs, c.status = ChunkStatus.pending) :
    deriveStatusReason cs s r m = (s, r) := by
  have hnall : (decide (cs.length > 0) &&
      cs.all fun x => x.status == ChunkStatus.completed) = false := by
    rcases List.eq_nil_or_concat cs with hnil | ⟨l, c, rfl⟩
    · simp [hnil]
    · simp only [Bool.and_eq_false_iff]
      right
      rw [List.all_eq_false]
      exact ⟨c, by simp, by simp [hp c (by simp)]⟩
  have hnof : (cs.any fun x => x.status == ChunkStatus.failed) = false := by
    simp only [List.any_eq_false, beq_iff_eq]
    intro c hc
    rw [hp c hc]
    intro h
    exact ChunkStatus.noConfusion h
  have hnoi : (cs.any fun x => x.status == ChunkStatus.in_progress) = false := by
    simp only [List.any_eq_false, beq_iff_eq]
    intro c hc
    rw [hp c hc]
    intro h
    exact ChunkStatus.noConfusion h
  have hnoc : (cs.any fun x => x.status == ChunkStatus.completed) = false := by
    simp only [List.any_eq_false, beq_iff_eq]
    intro c hc
    rw [hp c hc]
    intro h
    exact ChunkStatus.noConfusion h
  unfold deriveStatusReason
  simp only [gt_iff_lt, hnall, hnof, hnoi, hnoc, Bool.false_eq_true, if_false,
    Bool.or_self]

theorem updateTaskFromPlanFn_match (taskId : String)
    (plan : ImplementationPlan) (now : Nat) (t : Task)
    (hm : taskMatches taskId t = true) :
    updateTaskFromPlanFn taskId plan now t =
      { t with
        title := featureOr plan.feature t.title
        chunks := some (extractChunks plan)
        status := (deriveStatusReason (extractChunks plan) t.status
          t.reviewReason
          ((t.metadata.bind TaskMetadata.sourceType) == some "manual")).1
        reviewReason := (deriveStatusReason (extractChunks plan) t.status
          t.reviewReason
          ((t.metadata.bind TaskMetadata.sourceType) == some "manual")).2
        updatedAt := now } := by
  unfold updateTaskFromPlanFn
  simp [hm]

/- Concrete sample values used by the witnesses. -/

/-- Sample metadata of a manually created task. -/
def manualMeta : TaskMetadata := { sourceType := some "manual" }

/-- Sample in-progress task with manual source metadata. -/
def task0 : Task :=
  { id := "t1"
    specId := "s1"
    title := "T"
    description := "D"
    status := TaskStatus.in_progress
    reviewReason := none
    chunks := none
    executionProgress := none
    metadata := some manualMeta
    logs := none
    createdAt := 0
    updatedAt := 0 }

/-- Sample non-manual task (ideation source). -/
def taskIdeation : Task :=
  { task0 with
    id := "t2"
    specId := "s2"
    metadata := some { sourceType := some "ideation" } }

/-- Sample plan with a single completed chunk. -/
def planAllCompleted : ImplementationPlan :=
  { feature := some "F"
    phases :=
      [{ chunks := [{ id := "c1", description := "d",
                      status := ChunkStatus.completed,
                      verification := none }] }] }

/-- Sample plan with chunks completed, failed, pending (the spec's
scenario). -/
def planWithFailure : ImplementationPlan :=
  { feature := some "F"
    phases :=
      [{ chunks := [{ id := "c1", description := "d1",
                      status := ChunkStatus.completed, verification := none },
                    { id := "c2", description := "d2",
                      status := ChunkStatus.failed, verification := none },
                    { id := "c3", description := "d3",
                      status := ChunkStatus.pending, verification := none }] }] }

/-- Sample plan whose chunks are all pending. -/
def planAllPending : ImplementationPlan :=
  { feature := some "F"
    phases :=
      [{ chunks := [{ id := "c1", description := "d1",
                      status := ChunkStatus.pending,
                      verification := none }] }] }

/-- Claim C1: when the plan's chunk list is non-empty and every chunk is
completed, `updateTaskFromPlan` puts a matching task into `human_review`
with reason `completed` when its `metadata.sourceType` is `manual`, and
into `ai_review` with no reason otherwise. -/
theorem claim_C1_all_completed_derivation (taskId : String)
    (plan : ImplementationPlan) (now : Nat) (t : Task)
    (hm : taskMatches taskId t = true)
    (hne : extractChunks plan ≠ [])
    (hall : ∀ c ∈ extractChunks plan, c.status = ChunkStatus.completed) :
    ((t.metadata.bind TaskMetadata.sourceType) = some "manual" →
      (updateTaskFromPlanFn taskId plan now t).status =
          TaskStatus.human_review ∧
      (updateTaskFromPlanFn taskId plan now t).reviewReason =
          some ReviewReason.completed) ∧
    ((t.metadata.bind TaskMetadata.sourceType) ≠ some "manual" →
      (updateTaskFromPlanFn taskId plan now t).status = TaskStatus.ai_review ∧
      (updateTaskFromPlanFn taskId plan now t).reviewReason = none) := by
  rw [updateTaskFromPlanFn_match taskId plan now t hm]
  rw [deriveStatusReason_all_completed _ _ _ _ hne hall]
  constructor
  · intro h
    have hb : ((t.metadata.bind TaskMetadata.sourceType) == some "manual") =
        true := beq_iff_eq.mpr h
    simp [hb]
  · intro h
    have hb : ((t.metadata.bind TaskMetadata.sourceType) == some "manual") =
        false := beq_eq_false_iff_ne.mpr h
    simp [hb]

/-- Witness for C1: both branches at concrete inputs. -/
theorem claim_C1_witness :
    (taskMatches "t1" task0 = true ∧ extractChunks planAllCompleted ≠ [] ∧
      (∀ c ∈ extractChunks planAllCompleted,
        c.status = ChunkStatus.completed) ∧
      (updateTaskFromPlanFn "t1" planAllCompleted 1 task0).status =
          TaskStatus.human_review ∧
      (updateTaskFromPlanFn "t1" planAllCompleted 1 task0).reviewReason =
          some ReviewReason.completed) ∧
    ((updateTaskFromPlanFn "t2" planAllCompleted 1 taskIdeation).status =
          TaskStatus.ai_review ∧
      (updateTaskFromPlanFn "t2" planAllCompleted 1 taskIdeation).reviewReason =
          none) :=
  ⟨⟨by decide, by decide, by decide,
    (claim_C1_all_completed_derivation "t1" planAllCompleted 1 task0
      (by decide) (by decide) (by decide)).1 (by decide)⟩,
   (claim_C1_all_completed_derivation "t2" planAllCompleted 1 taskIdeation
      (by decide) (by decide) (by decide)).2 (by decide)⟩

/-- Claim C2: when the plan's chunk list carries at least one failed chunk
(and is hence not all completed), `updateTaskFromPlan` puts a matching task
into `human_review` with reason `errors`. -/
theorem claim_C2_any_failed_derivation (taskId : String)
    (plan : ImplementationPlan) (now : Nat) (t : Task)
    (hm : taskMatches taskId t = true) (c : Chunk)
    (hc : c ∈ extractChunks plan) (hf : c.status = ChunkStatus.failed)
    (_hnall : ¬ ∀ x ∈ extractChunks plan, x.status = ChunkStatus.completed) :
    (updateTaskFromPlanFn taskId plan now t).status =
        TaskStatus.human_review ∧
    (updateTaskFromPlanFn taskId plan now t).reviewReason =
        some ReviewReason.errors := by
  rw [updateTaskFromPlanFn_match taskId plan now t hm]
  rw [deriveStatusReason_any_failed _ _ _ _ c hc hf]
  exact ⟨rfl, rfl⟩

/-- Witness for C2: the spec's completed/failed/pending scenario. -/
theorem claim_C2_witness :
    taskMatches "t1" task0 = true ∧
    (∃ c ∈ extractChunks planWithFailure, c.status = ChunkStatus.failed) ∧
    (¬ ∀ x ∈ extractChunks planWithFailure,
        x.status = ChunkStatus.completed) ∧
    (updateTaskFromPlanFn "t1" planWithFailure 1 task0).status =
        TaskStatus.human_review ∧
    (updateTaskFromPlanFn "t1" planWithFailure 1 task0).reviewReason =
        some ReviewReason.errors := by
  refine ⟨by decide, ⟨⟨"c2", "d2", "d2", ChunkStatus.failed, [], none⟩,
    by decide, by decide⟩, by decide, ?_⟩
  exact claim_C2_any_failed_derivation "t1" planWithFailure 1 task0
    (by decide) ⟨"c2", "d2", "d2", ChunkStatus.failed, [], none⟩
    (by decide) (by decide) (by decide)

/-- Claim C3: when the plan's chunk list is empty or all chunks are still
pending, `updateTaskFromPlan` leaves every task's status unchanged. -/
theorem claim_C3_quiescent_preserves_status (taskId : String)
    (plan : ImplementationPlan) (now : Nat) (t : Task)
    (hp : ∀ c ∈ extractChunks plan, c.status = ChunkStatus.pending) :
    (updateTaskFromPlanFn taskId plan now t).status = t.status := by
  cases hb : taskMatches taskId t with
  | false =>
    unfold updateTaskFromPlanFn
    simp [hb]
  | true =>
    rw [updateTaskFromPlanFn_match taskId plan now t hb]
    rw [deriveStatusReason_quiescent _ _ _ _ hp]

/-- Witness for C3: an all-pending plan leaves the sample task
in_progress. -/
theorem claim_C3_witness :
    (∀ c ∈ extractChunks planAllPending, c.status = ChunkStatus.pending) ∧
    (updateTaskFromPlanFn "t1" planAllPending 1 task0).status =
        task0.status :=
  ⟨by decide,
   claim_C3_quiescent_preserves_status "t1" planAllPending 1 task0 (by decide)⟩

/-- Claim C4: `isIncompleteHumanReview` holds exactly on tasks in
`human_review` none of whose chunks (empty or absent lists included) is
completed. -/
theorem claim_C4_isIncompleteHumanReview_iff (t : Task) :
    isIncompleteHumanReview t = true ↔
      t.status = TaskStatus.human_review ∧
        ∀ c ∈ t.chunks.getD [], c.status ≠ ChunkStatus.completed := by
  unfold isIncompleteHumanReview
  by_cases hs : t.status = TaskStatus.human_review
  · simp only [hs, bne_self_eq_false, Bool.false_eq_true, if_false,
      eq_self_iff_true, true_and]
    cases hch : t.chunks with
    | none => simp
    | some cs =>
      simp only [Option.getD_some]
      cases cs with
      | nil => simp
      | cons c rest =>
        simp only [List.length_cons,
          show ((rest.length + 1 : Nat) == 0) = false from by simp,
          Bool.false_eq_true, if_false, beq_iff_eq,
          List.length_eq_zero, List.filter_eq_nil_iff]
  · have hb : (t.status != TaskStatus.human_review) = true := by
      simpa [bne_iff_ne] using hs
    simp [hb, hs]

/-- Claim C5: with no live worker process, recovery succeeds on two
successive calls, and a worker start happens only on a call that
explicitly requests `autoRestart`. -/
theorem claim_C5_recover_idempotent (w : WorkerState) (o1 o2 : RecoverOptions)
    (hnp : w.processRunning = false)
    (h1 : o1.autoRestart ≠ some true) :
    (recoverStuckTaskModel o1 w).1 = true ∧
    (recoverStuckTaskModel o2 (recoverStuckTaskModel o1 w).2).1 = true ∧
    (o2.autoRestart ≠ some true →
      (recoverStuckTaskModel o2
        (recoverStuckTaskModel o1 w).2).2.startCount = w.startCount) ∧
    (o2.autoRestart = some true →
      (recoverStuckTaskModel o2
        (recoverStuckTaskModel o1 w).2).2.startCount = w.startCount + 1) := by
  have hb1 : (o1.autoRestart == some true) = false := beq_eq_false_iff_ne.mpr h1
  unfold recoverStuckTaskModel
  simp only [hnp, Bool.false_eq_true, if_false, hb1]
  by_cases h2 : o2.autoRestart = some true
  · have hb2 : (o2.autoRestart == some true) = true := beq_iff_eq.mpr h2
    simp [hb2, h2]
  · have hb2 : (o2.autoRestart == some true) = false :=
      beq_eq_false_iff_ne.mpr h2
    simp [hb2, h2]

/-- Witness for C5: two recoveries without restart on a dead worker. -/
theorem claim_C5_recover_idempotent_witness :
    (recoverStuckTaskModel { autoRestart := some false }
      { processRunning := false, status := TaskStatus.in_progress,
        startCount := 0 }).1 = true ∧
    (recoverStuckTaskModel { autoRestart := some false }
      (recoverStuckTaskModel { autoRestart := some false }
        { processRunning := false, status := TaskStatus.in_progress,
          startCount := 0 }).2).1 = true ∧
    (recoverStuckTaskModel { autoRestart := some false }
      (recoverStuckTaskModel { autoRestart := some false }
        { processRunning := false, status := TaskStatus.in_progress,
          startCount := 0 }).2).2.startCount = 0 := by
  have h := claim_C5_recover_idempotent
    { processRunning := false, status := TaskStatus.in_progress,
      startCount := 0 }
    { autoRestart := some false } { autoRestart := some false }
    (by decide) (by decide)
  exact ⟨h.1, h.2.1, h.2.2.1 (by decide)⟩

/- Sample values for the progress claims. -/

/-- Sample active progress: coding phase at 50 percent. -/
def codingProgress : ExecutionProgress :=
  { phase := ExecutionPhase.coding
    phaseProgress := 50
    overallProgress := 50
    message := none
    currentChunk := none }

/-- Sample task with active coding progress. -/
def taskActive : Task :=
  { task0 with executionProgress := some codingProgress }

/-- A progress update lowering `overallProgress` to 10. -/
def lowerUpdate : ProgressUpdate := { overallProgress := some 10 }

/-- A progress update carrying only a message. -/
def msgUpdate : ProgressUpdate := { message := some (some "hi") }

/-- A progress update raising `overallProgress` to 80. -/
def raiseUpdate : ProgressUpdate := { overallProgress := some 80 }

/-- Claim C6: `updateExecutionProgress` merges a partial update into the
matching task's existing progress: every field absent from the update
keeps its prior value, and every task field other than `executionProgress`
and `updatedAt` is unchanged. -/
theorem claim_C6_progress_merge_frame (taskId : String) (p : ProgressUpdate)
    (now : Nat) (t : Task) (ep0 : ExecutionProgress)
    (hm : taskMatches taskId t = true)
    (hprev : t.executionProgress = some ep0) :
    (updateExecutionProgressFn taskId p now t).executionProgress =
        some (mergeProgress ep0 p) ∧
    (p.phase = none → (mergeProgress ep0 p).phase = ep0.phase) ∧
    (p.phaseProgress = none →
      (mergeProgress ep0 p).phaseProgress = ep0.phaseProgress) ∧
    (p.overallProgress = none →
      (mergeProgress ep0 p).overallProgress = ep0.overallProgress) ∧
    (p.message = none → (mergeProgress ep0 p).message = ep0.message) ∧
    (p.currentChunk = none →
      (mergeProgress ep0 p).currentChunk = ep0.currentChunk) ∧
    (updateExecutionProgressFn taskId p now t).id = t.id ∧
    (updateExecutionProgressFn taskId p now t).specId = t.specId ∧
    (updateExecutionProgressFn taskId p now t).title = t.title ∧
    (updateExecutionProgressFn taskId p now t).description = t.description ∧
    (updateExecutionProgressFn taskId p now t).status = t.status ∧
    (updateExecutionProgressFn taskId p now t).reviewReason = t.reviewReason ∧
    (updateExecutionProgressFn taskId p now t).chunks = t.chunks ∧
    (updateExecutionProgressFn taskId p now t).metadata = t.metadata ∧
    (updateExecutionProgressFn taskId p now t).logs = t.logs ∧
    (updateExecutionProgressFn taskId p now t).createdAt = t.createdAt := by
  refine ⟨by simp [updateExecutionProgressFn, hm, hprev],
    fun h => by simp [mergeProgress, h],
    fun h => by simp [mergeProgress, h],
    fun h => by simp [mergeProgress, h],
    fun h => by simp [mergeProgress, h],
    fun h => by simp [mergeProgress, h],
    ?_, ?_, ?_, ?_, ?_, ?_, ?_, ?_, ?_, ?_⟩ <;>
    simp [updateExecutionProgressFn, hm]

/-- Witness for C6: a message-only update keeps the prior coding progress
values. -/
theorem claim_C6_progress_merge_frame_witness :
    taskMatches "t1" taskActive = true ∧
    taskActive.executionProgress = some codingProgress ∧
    (updateExecutionProgressFn "t1" msgUpdate 2 taskActive).executionProgress =
      some (mergeProgress codingProgress msgUpdate) ∧
    (mergeProgress codingProgress msgUpdate).overallProgress =
      codingProgress.overallProgress := by
  have h := claim_C6_progress_merge_frame "t1" msgUpdate 2 taskActive
    codingProgress (by decide) (by decide)
  exact ⟨by decide, by decide, h.1, h.2.2.2.1 (by decide)⟩

/-- Counterexample to claim C7: on a task in the active `coding` phase (not
failed), an update carrying a smaller `overallProgress` makes the stored
value strictly decrease: `updateExecutionProgress` does not enforce
monotonicity. -/
theorem claim_C7_counterexample :
    hasActiveExecution taskActive = true ∧
    (taskActive.executionProgress.getD emptyProgress).phase ≠
      ExecutionPhase.failed ∧
    hasActiveExecution (updateExecutionProgressFn "t1" lowerUpdate 1
      taskActive) = true ∧
    ((updateExecutionProgressFn "t1" lowerUpdate 1
        taskActive).executionProgress.getD emptyProgress).overallProgress <
      (taskActive.executionProgress.getD emptyProgress).overallProgress := by
  decide

/-- Claim C7 as amended: `updateExecutionProgress` writes through whatever
`overallProgress` the update supplies; the stored value is non-decreasing
exactly when each update either omits `overallProgress` or supplies a
value at least the current one. -/
theorem claim_C7_monotone_when_updates_nondecreasing (taskId : String)
    (p : ProgressUpdate) (now : Nat) (t : Task) (ep0 : ExecutionProgress)
    (hprev : t.executionProgress = some ep0)
    (hmono : ∀ v, p.overallProgress = some v → ep0.overallProgress ≤ v) :
    ep0.overallProgress ≤
      ((updateExecutionProgressFn taskId p now
        t).executionProgress.getD emptyProgress).overallProgress := by
  cases hb : taskMatches taskId t with
  | false =>
    unfold updateExecutionProgressFn
    simp [hb, hprev]
  | true =>
    unfold updateExecutionProgressFn
    simp only [hb, not_true_eq_false, if_false, hprev, Option.getD_some,
      mergeProgress]
    cases hov : p.overallProgress with
    | none => simp
    | some v => simpa using hmono v hov

/-- Witness for C7's amended claim: a raising update keeps progress
non-decreasing. -/
theorem claim_C7_monotone_witness :
    taskActive.executionProgress = some codingProgress ∧
    codingProgress.overallProgress ≤
      ((updateExecutionProgressFn "t1" raiseUpdate 1
        taskActive).executionProgress.getD emptyProgress).overallProgress :=
  ⟨by decide,
   claim_C7_monotone_when_updates_nondecreasing "t1" raiseUpdate 1 taskActive
    codingProgress (by decide)
    (fun v hv => by
      have hv80 : v = 80 := (Option.some.inj hv).symm
      subst hv80
      decide)⟩

/-- Sample task sitting in human review with a recorded reason. -/
def reviewTask : Task :=
  { task0 with
    status := TaskStatus.human_review
    reviewReason := some ReviewReason.errors }

/-- Counterexample to claim C8: approving a review moves the task to
`done` through `updateTaskStatus`, which leaves the stale `errors` reason
in place, so the reviewReason-only-in-human-review invariant is broken. -/
theorem claim_C8_counterexample :
    reviewReasonInv reviewTask ∧
    (submitReviewLocal "t1" true true 1
        { tasks := [reviewTask], selectedTaskId := none }).tasks.head? =
      some { reviewTask with status := TaskStatus.done, updatedAt := 1 } ∧
    ¬ reviewReasonInv
        { reviewTask with status := TaskStatus.done, updatedAt := 1 } := by
  decide

/-- Lemma: the status derivation preserves the reviewReason invariant. -/
theorem deriveStatusReason_inv (cs : List Chunk) (s : TaskStatus)
    (r : Option ReviewReason) (m : Bool)
    (h : r ≠ none → s = TaskStatus.human_review) :
    (deriveStatusReason cs s r m).2 ≠ none →
      (deriveStatusReason cs s r m).1 = TaskStatus.human_review := by
  simp only [deriveStatusReason]
  split_ifs <;> simp_all

/-- Claim C8 as amended: `updateTaskFromPlan` preserves the invariant that
`reviewReason` is defined only in `human_review` (it clears the reason
whenever it derives any other status), but `updateTaskStatus` — and hence
`submitReview`, which changes status through it — leaves `reviewReason`
untouched, so those operations can carry a stale reason out of
`human_review`. -/
theorem claim_C8_amended :
    (∀ (taskId : String) (plan : ImplementationPlan) (now : Nat) (t : Task),
        reviewReasonInv t →
          reviewReasonInv (updateTaskFromPlanFn taskId plan now t)) ∧
    (∀ (taskId : String) (s : TaskStatus) (now : Nat) (t : Task),
        (updateTaskStatusFn taskId s now t).reviewReason = t.reviewReason) := by
  constructor
  · intro taskId plan now t hinv
    cases hb : taskMatches taskId t with
    | false =>
      unfold updateTaskFromPlanFn
      simpa [hb] using hinv
    | true =>
      rw [updateTaskFromPlanFn_match taskId plan now t hb]
      unfold reviewReasonInv at hinv ⊢
      intro hne
      exact deriveStatusReason_inv _ _ _ _ hinv hne
  · intro taskId s now t
    unfold updateTaskStatusFn
    cases hb : taskMatches taskId t with
    | false => simp [hb]
    | true => simp [hb]

/-- Witness for C8's amended claim at concrete inputs. -/
theorem claim_C8_amended_witness :
    reviewReasonInv task0 ∧
    reviewReasonInv (updateTaskFromPlanFn "t1" planAllCompleted 1 task0) ∧
    (updateTaskStatusFn "t1" TaskStatus.done 1 reviewTask).reviewReason =
      reviewTask.reviewReason :=
  ⟨by decide,
   claim_C8_amended.1 "t1" planAllCompleted 1 task0 (by decide),
   claim_C8_amended.2 "t1" TaskStatus.done 1 reviewTask⟩

/-- Claim C9: rejecting a review with feedback that is empty or
whitespace-only returns locally without ever building a submission for the
control process. -/
theorem claim_C9_empty_feedback_rejected_locally (taskId feedback : String)
    (hws : ∀ c ∈ feedback.data, c.isWhitespace) :
    handleReject taskId feedback = none := by
  unfold handleReject
  have hdrop : feedback.data.dropWhile Char.isWhitespace = [] :=
    List.dropWhile_eq_nil_iff.mpr hws
  have hempty : (jsTrim feedback).isEmpty = true := by
    unfold jsTrim
    simp [hdrop, String.isEmpty]
  simp [hempty]

/-- Witness for C9: whitespace-only feedback never reaches submission. -/
theorem claim_C9_witness :
    (∀ c ∈ ("  ").data, c.isWhitespace) ∧
      handleReject "t1" "  " = none :=
  ⟨by decide, claim_C9_empty_feedback_rejected_locally "t1" "  " (by decide)⟩

/-- Claim C10: every task-mutating store action touches only tasks whose
`id` or `specId` equals the given identifier — any task differing in both
fields is returned unchanged at its position — and a task matched through
its `specId` receives the very same update a task matched through `id`
would. -/
theorem claim_C10_identifier_frame (taskId : String) (u : TaskUpdate)
    (s : TaskStatus) (plan : ImplementationPlan) (p : ProgressUpdate)
    (lg : String) (now : Nat) (st : TaskState) (i : Nat) (t : Task)
    (ht : st.tasks[i]? = some t)
    (h1 : t.id ≠ taskId) (h2 : t.specId ≠ taskId) :
    (updateTask taskId u st).tasks[i]? = some t ∧
    (updateTaskStatus taskId s now st).tasks[i]? = some t ∧
    (updateTaskFromPlan taskId plan now st).tasks[i]? = some t ∧
    (updateExecutionProgress taskId p now st).tasks[i]? = some t ∧
    (appendLog taskId lg st).tasks[i]? = some t ∧
    (∀ t2 : Task, t2.specId = taskId →
      (updateTaskStatusFn taskId s now t2).status = s ∧
      (appendLogFn taskId lg t2).logs = some (t2.logs.getD [] ++ [lg])) := by
  have hnm : taskMatches taskId t = false := by
    simp [taskMatches, h1, h2]
  refine ⟨?_, ?_, ?_, ?_, ?_, ?_⟩
  · simp [updateTask, List.getElem?_map, ht, updateTaskFn, hnm]
  · simp [updateTaskStatus, List.getElem?_map, ht, updateTaskStatusFn, hnm]
  · simp [updateTaskFromPlan, List.getElem?_map, ht, updateTaskFromPlanFn, hnm]
  · simp [updateExecutionProgress, List.getElem?_map, ht,
      updateExecutionProgressFn, hnm]
  · simp [appendLog, List.getElem?_map, ht, appendLogFn, hnm]
  · intro t2 hsp
    have hm2 : taskMatches taskId t2 = true := by
      simp [taskMatches, hsp]
    exact ⟨by simp [updateTaskStatusFn, hm2], by simp [appendLogFn, hm2]⟩

/-- Witness for C10: on a two-task state, mutating by the first task's
spec id leaves the unrelated second task untouched. -/
theorem claim_C10_identifier_frame_witness :
    ({ tasks := [task0, taskIdeation],
       selectedTaskId := none } : TaskState).tasks[1]? = some taskIdeation ∧
    (updateTaskStatus "s1" TaskStatus.done 3
        { tasks := [task0, taskIdeation],
          selectedTaskId := none }).tasks[1]? = some taskIdeation ∧
    (appendLog "s1" "line"
        { tasks := [task0, taskIdeation],
          selectedTaskId := none }).tasks[1]? = some taskIdeation ∧
    (updateTaskStatusFn "s1" TaskStatus.done 3 task0).status =
      TaskStatus.done := by
  have h := claim_C10_identifier_frame "s1" {} TaskStatus.done
    { feature := none, phases := [] } {} "line" 3
    { tasks := [task0, taskIdeation], selectedTaskId := none } 1 taskIdeation
    (by decide) (by decide) (by decide)
  exact ⟨by decide, h.2.1, h.2.2.2.2.1,
    (h.2.2.2.2.2 task0 (by decide)).1⟩

end AutoClaude
